import Mathlib

/-!
A shallow embedding of the rotation representation class EulerAnglesZyx from
src/rotations/include/kindr/rotations/eigen/EulerAnglesZyx.hpp, together with
theorems checking the specified behaviour of its constructors, accessors,
mutators, same-representation conversion, rotation-vector conversion and
canonicalization (getUnique).

The C++ scalar template parameter PrimType_ (float or double) is modelled as
an abstract type S carrying exactly the algebraic structure each member
function uses; theorems about the canonicalization instantiate S with the
real numbers and the constant M_PI with Real.pi.  The usage template
parameter Usage_ is passed to each member function as an explicit argument.
-/

/-- The rotation usage tag (enum RotationUsage, declared in
kindr/rotations/RotationBase.hpp and fixed by the spec to the two values
Active and Passive). -/
inductive RotationUsage where
  | ACTIVE
  | PASSIVE
deriving DecidableEq

/-- EulerAnglesZyx<PrimType_, Usage_> (lines 63-72 of EulerAnglesZyx.hpp):
the stored payload zyx_ is the vector of Euler angles [yaw; pitch; roll]. -/
structure EulerAnglesZyx (S : Type) where
  zyx_ : S × S × S

/-- Constructor from three scalars (lines 94-100): for ACTIVE usage the
payload is (yaw, pitch, roll); for PASSIVE usage it is the negated triple. -/
def EulerAnglesZyx.ofScalars {S : Type} [Neg S] (u : RotationUsage)
    (yawIn pitchIn rollIn : S) : EulerAnglesZyx S :=
  match u with
  | RotationUsage.ACTIVE => ⟨(yawIn, pitchIn, rollIn)⟩
  | RotationUsage.PASSIVE => ⟨(-yawIn, -pitchIn, -rollIn)⟩

/-- Constructor from a raw Eigen::Matrix payload (lines 105-111): for ACTIVE
usage the payload is stored as given, for PASSIVE usage it is negated
element-wise. -/
def EulerAnglesZyx.ofBase {S : Type} [Neg S] (u : RotationUsage)
    (other : S × S × S) : EulerAnglesZyx S :=
  match u with
  | RotationUsage.ACTIVE => ⟨other⟩
  | RotationUsage.PASSIVE => ⟨-other⟩

/-- toImplementation (lines 160-166): returns the stored payload for ACTIVE
usage and its element-wise negation for PASSIVE usage. -/
def EulerAnglesZyx.toImplementation {S : Type} [Neg S] (e : EulerAnglesZyx S)
    (u : RotationUsage) : S × S × S :=
  match u with
  | RotationUsage.ACTIVE => e.zyx_
  | RotationUsage.PASSIVE => -e.zyx_

/-- toStoredImplementation (lines 171-180): returns the raw stored payload,
with no usage-dependent sign. -/
def EulerAnglesZyx.toStoredImplementation {S : Type} (e : EulerAnglesZyx S) :
    S × S × S :=
  e.zyx_

/-- yaw() accessor (lines 185-191). -/
def EulerAnglesZyx.yaw {S : Type} [Neg S] (e : EulerAnglesZyx S)
    (u : RotationUsage) : S :=
  match u with
  | RotationUsage.ACTIVE => e.zyx_.1
  | RotationUsage.PASSIVE => -e.zyx_.1

/-- pitch() accessor (lines 196-202). -/
def EulerAnglesZyx.pitch {S : Type} [Neg S] (e : EulerAnglesZyx S)
    (u : RotationUsage) : S :=
  match u with
  | RotationUsage.ACTIVE => e.zyx_.2.1
  | RotationUsage.PASSIVE => -e.zyx_.2.1

/-- roll() accessor (lines 207-213). -/
def EulerAnglesZyx.roll {S : Type} [Neg S] (e : EulerAnglesZyx S)
    (u : RotationUsage) : S :=
  match u with
  | RotationUsage.ACTIVE => e.zyx_.2.2
  | RotationUsage.PASSIVE => -e.zyx_.2.2

/-- z() accessor (lines 248-254), textually the same branches as yaw(). -/
def EulerAnglesZyx.z {S : Type} [Neg S] (e : EulerAnglesZyx S)
    (u : RotationUsage) : S :=
  match u with
  | RotationUsage.ACTIVE => e.zyx_.1
  | RotationUsage.PASSIVE => -e.zyx_.1

/-- y() accessor (lines 259-265), textually the same branches as pitch(). -/
def EulerAnglesZyx.y {S : Type} [Neg S] (e : EulerAnglesZyx S)
    (u : RotationUsage) : S :=
  match u with
  | RotationUsage.ACTIVE => e.zyx_.2.1
  | RotationUsage.PASSIVE => -e.zyx_.2.1

/-- x() accessor (lines 270-276), textually the same branches as roll(). -/
def EulerAnglesZyx.x {S : Type} [Neg S] (e : EulerAnglesZyx S)
    (u : RotationUsage) : S :=
  match u with
  | RotationUsage.ACTIVE => e.zyx_.2.2
  | RotationUsage.PASSIVE => -e.zyx_.2.2

/-- setYaw (lines 217-223): writes component 0 of the payload, negating the
argument for PASSIVE usage. -/
def EulerAnglesZyx.setYaw {S : Type} [Neg S] (e : EulerAnglesZyx S)
    (u : RotationUsage) (v : S) : EulerAnglesZyx S :=
  match u with
  | RotationUsage.ACTIVE => ⟨(v, e.zyx_.2.1, e.zyx_.2.2)⟩
  | RotationUsage.PASSIVE => ⟨(-v, e.zyx_.2.1, e.zyx_.2.2)⟩

/-- setPitch (lines 227-233): writes component 1 of the payload, negating the
argument for PASSIVE usage. -/
def EulerAnglesZyx.setPitch {S : Type} [Neg S] (e : EulerAnglesZyx S)
    (u : RotationUsage) (v : S) : EulerAnglesZyx S :=
  match u with
  | RotationUsage.ACTIVE => ⟨(e.zyx_.1, v, e.zyx_.2.2)⟩
  | RotationUsage.PASSIVE => ⟨(e.zyx_.1, -v, e.zyx_.2.2)⟩

/-- setRoll (lines 237-243): writes component 2 of the payload, negating the
argument for PASSIVE usage. -/
def EulerAnglesZyx.setRoll {S : Type} [Neg S] (e : EulerAnglesZyx S)
    (u : RotationUsage) (v : S) : EulerAnglesZyx S :=
  match u with
  | RotationUsage.ACTIVE => ⟨(e.zyx_.1, e.zyx_.2.1, v)⟩
  | RotationUsage.PASSIVE => ⟨(e.zyx_.1, e.zyx_.2.1, -v)⟩

/-- setZ (lines 281-287), textually the same branches as setYaw. -/
def EulerAnglesZyx.setZ {S : Type} [Neg S] (e : EulerAnglesZyx S)
    (u : RotationUsage) (v : S) : EulerAnglesZyx S :=
  match u with
  | RotationUsage.ACTIVE => ⟨(v, e.zyx_.2.1, e.zyx_.2.2)⟩
  | RotationUsage.PASSIVE => ⟨(-v, e.zyx_.2.1, e.zyx_.2.2)⟩

/-- setY (lines 292-298), textually the same branches as setPitch. -/
def EulerAnglesZyx.setY {S : Type} [Neg S] (e : EulerAnglesZyx S)
    (u : RotationUsage) (v : S) : EulerAnglesZyx S :=
  match u with
  | RotationUsage.ACTIVE => ⟨(e.zyx_.1, v, e.zyx_.2.2)⟩
  | RotationUsage.PASSIVE => ⟨(e.zyx_.1, -v, e.zyx_.2.2)⟩

/-- setX (lines 303-309), textually the same branches as setRoll. -/
def EulerAnglesZyx.setX {S : Type} [Neg S] (e : EulerAnglesZyx S)
    (u : RotationUsage) (v : S) : EulerAnglesZyx S :=
  match u with
  | RotationUsage.ACTIVE => ⟨(e.zyx_.1, e.zyx_.2.1, v)⟩
  | RotationUsage.PASSIVE => ⟨(e.zyx_.1, e.zyx_.2.1, -v)⟩

/-- Modelled from the spec: kindr::common::floatingPointModulo lives in
kindr/common/common.hpp, which is not under src/.  The spec (section 4.4,
step 1) describes the wrap as the floating-point modulo operation
wrapped = mod(angle + pi, 2 pi) - pi, so mod x y is x - y * floor (x / y). -/
def floatingPointModulo {S : Type} [LinearOrderedField S] [FloorRing S]
    (a b : S) : S :=
  a - b * (⌊a / b⌋ : ℤ)

/-- getUnique (lines 323-360): wraps the three nominal angles into [-pi, pi)
and, when the wrapped pitch leaves [-pi/2, pi/2), remaps the triple through
the second sheet of the double cover.  The constant M_PI is the argument pi;
all reads and writes go through the usage-aware accessors and mutators
exactly as in the source. -/
def EulerAnglesZyx.getUnique {S : Type} [LinearOrderedField S] [FloorRing S]
    (pi : S) (u : RotationUsage) (e : EulerAnglesZyx S) : EulerAnglesZyx S :=
  let zyx0 := EulerAnglesZyx.ofScalars u
      (floatingPointModulo (e.yaw u + pi) (2 * pi) - pi)
      (floatingPointModulo (e.pitch u + pi) (2 * pi) - pi)
      (floatingPointModulo (e.roll u + pi) (2 * pi) - pi)
  if pi / 2 ≤ zyx0.pitch u then
    let z1 := if 0 ≤ zyx0.yaw u then zyx0.setYaw u (zyx0.yaw u - pi)
              else zyx0.setYaw u (zyx0.yaw u + pi)
    let z2 := z1.setPitch u (-(z1.pitch u - pi))
    let z3 := if 0 ≤ z2.roll u then z2.setRoll u (z2.roll u - pi)
              else z2.setRoll u (z2.roll u + pi)
    z3
  else if zyx0.pitch u < -(pi / 2) then
    let z1 := if 0 ≤ zyx0.yaw u then zyx0.setYaw u (zyx0.yaw u - pi)
              else zyx0.setYaw u (zyx0.yaw u + pi)
    let z2 := z1.setPitch u (-(z1.pitch u + pi))
    let z3 := if 0 ≤ z2.roll u then z2.setRoll u (z2.roll u - pi)
              else z2.setRoll u (z2.roll u + pi)
    z3
  else zyx0

/-- ConversionTraits<EulerAnglesZyx, EulerAnglesZyx>::convert (lines 482-488)
at equal scalar precision, where the element-wise cast is the identity: the
source's raw stored payload is passed to the Base constructor, which applies
the usage sign convention. -/
def convertZyxFromZyx {S : Type} [Neg S] (u : RotationUsage)
    (zyx : EulerAnglesZyx S) : EulerAnglesZyx S :=
  EulerAnglesZyx.ofBase u zyx.toStoredImplementation

/-- Euclidean norm of a 3-vector, from the numeric substrate (Eigen's
norm(), which the spec treats as a vetted external library). -/
noncomputable def vnorm (v : ℝ × ℝ × ℝ) : ℝ :=
  Real.sqrt (v.1 ^ 2 + v.2.1 ^ 2 + v.2.2 ^ 2)

/-- Modelled from the spec: Eigen's normalized() from the numeric substrate
divides the vector by its norm; at a zero norm the division fails (IEEE NaN),
which the embedding returns as none. -/
noncomputable def normalized (v : ℝ × ℝ × ℝ) : Option (ℝ × ℝ × ℝ) :=
  if vnorm v = 0 then none
  else some (v.1 / vnorm v, v.2.1 / vnorm v, v.2.2 / vnorm v)

/-- ConversionTraits<EulerAnglesZyx, RotationVector>::convert (lines 450-456):
builds AngleAxis(rv.norm(), rv.normalized()) and feeds it to
getYprFromAngleAxis, whose result goes through the Base constructor.
getYprFromAngleAxis lives in RotationEigenFunctions.hpp, which is not under
src/, so it is abstracted as the parameter f taking the angle and the axis;
the failure of normalized() propagates through the whole conversion. -/
noncomputable def convertZyxFromRotationVector
    (f : ℝ → ℝ × ℝ × ℝ → ℝ × ℝ × ℝ) (u : RotationUsage) (rv : ℝ × ℝ × ℝ) :
    Option (EulerAnglesZyx ℝ) :=
  (normalized rv).map fun axis => EulerAnglesZyx.ofBase u (f (vnorm rv) axis)

/-- Claim C7: for every EulerAnglesZyx value, toImplementation() returns the
stored payload unchanged under the Active usage tag and the element-wise
negation of the stored payload under the Passive usage tag. -/
theorem toImplementation_returns_signed_payload {S : Type} [Neg S]
    (e : EulerAnglesZyx S) :
    e.toImplementation RotationUsage.ACTIVE = e.toStoredImplementation ∧
    e.toImplementation RotationUsage.PASSIVE = -e.toStoredImplementation :=
  ⟨rfl, rfl⟩

/-- Claim C1, counterexample: at (yaw, pitch, roll) = (1, 2, 3) the
toImplementation() of the Passive-constructed value is (1, 2, 3), not the
negation (-1, -2, -3) of the Active-constructed value's toImplementation();
the constructor negation and the accessor negation cancel. -/
theorem passive_toImplementation_not_negated_active :
    (EulerAnglesZyx.ofScalars RotationUsage.PASSIVE (1 : ℚ) 2 3).toImplementation
        RotationUsage.PASSIVE ≠
      -((EulerAnglesZyx.ofScalars RotationUsage.ACTIVE (1 : ℚ) 2 3).toImplementation
        RotationUsage.ACTIVE) := by
  decide

/-- Claim C1, amended: for every yaw, pitch, roll and scalar type, the
Passive-constructed value's toImplementation() equals (rather than negates)
the Active-constructed value's toImplementation(), and the negation law holds
between the stored payloads (toStoredImplementation). -/
theorem passive_active_toImplementation_eq (S : Type) [AddGroup S]
    (yawIn pitchIn rollIn : S) :
    (EulerAnglesZyx.ofScalars RotationUsage.PASSIVE yawIn pitchIn rollIn).toImplementation
        RotationUsage.PASSIVE =
      (EulerAnglesZyx.ofScalars RotationUsage.ACTIVE yawIn pitchIn rollIn).toImplementation
        RotationUsage.ACTIVE ∧
    (EulerAnglesZyx.ofScalars RotationUsage.PASSIVE yawIn pitchIn rollIn).toStoredImplementation =
      -((EulerAnglesZyx.ofScalars RotationUsage.ACTIVE yawIn pitchIn rollIn).toStoredImplementation) := by
  constructor
  · simp [EulerAnglesZyx.ofScalars, EulerAnglesZyx.toImplementation, Prod.neg_mk]
  · simp [EulerAnglesZyx.ofScalars, EulerAnglesZyx.toStoredImplementation, Prod.neg_mk]

/-- Claim C8: for both usage tags and every angle triple, the constructor and
the accessors cancel: yaw() and z() return the yaw argument, pitch() and y()
the pitch argument, roll() and x() the roll argument. -/
theorem accessors_cancel_constructor (S : Type) [AddGroup S]
    (u : RotationUsage) (yawIn pitchIn rollIn : S) :
    (EulerAnglesZyx.ofScalars u yawIn pitchIn rollIn).yaw u = yawIn ∧
    (EulerAnglesZyx.ofScalars u yawIn pitchIn rollIn).z u = yawIn ∧
    (EulerAnglesZyx.ofScalars u yawIn pitchIn rollIn).pitch u = pitchIn ∧
    (EulerAnglesZyx.ofScalars u yawIn pitchIn rollIn).y u = pitchIn ∧
    (EulerAnglesZyx.ofScalars u yawIn pitchIn rollIn).roll u = rollIn ∧
    (EulerAnglesZyx.ofScalars u yawIn pitchIn rollIn).x u = rollIn := by
  cases u <;>
    simp [EulerAnglesZyx.ofScalars, EulerAnglesZyx.yaw, EulerAnglesZyx.pitch,
      EulerAnglesZyx.roll, EulerAnglesZyx.z, EulerAnglesZyx.y, EulerAnglesZyx.x]

/-- Claim C10: each single-angle mutator leaves the other two nominal angles
unchanged, for both usage tags and any prior state: setYaw and setZ preserve
pitch() and roll(), setPitch and setY preserve yaw() and roll(), setRoll and
setX preserve yaw() and pitch(). -/
theorem setters_modify_only_own_component (S : Type) [Neg S]
    (u : RotationUsage) (a : S) (e : EulerAnglesZyx S) :
    (e.setYaw u a).pitch u = e.pitch u ∧ (e.setYaw u a).roll u = e.roll u ∧
    (e.setZ u a).pitch u = e.pitch u ∧ (e.setZ u a).roll u = e.roll u ∧
    (e.setPitch u a).yaw u = e.yaw u ∧ (e.setPitch u a).roll u = e.roll u ∧
    (e.setY u a).yaw u = e.yaw u ∧ (e.setY u a).roll u = e.roll u ∧
    (e.setRoll u a).yaw u = e.yaw u ∧ (e.setRoll u a).pitch u = e.pitch u ∧
    (e.setX u a).yaw u = e.yaw u ∧ (e.setX u a).pitch u = e.pitch u := by
  cases u <;>
    exact ⟨rfl, rfl, rfl, rfl, rfl, rfl, rfl, rfl, rfl, rfl, rfl, rfl⟩

/-- Claim C4: same-precision Passive-to-Passive conversion through
ConversionTraits<EulerAnglesZyx, EulerAnglesZyx>::convert negates the stored
payload: converting the value with stored payload (1, 2, 3) yields stored
payload (-1, -2, -3), which differs from the source payload. -/
theorem convertZyxFromZyx_passive_flips_payload :
    (convertZyxFromZyx RotationUsage.PASSIVE
        (⟨(1, 2, 3)⟩ : EulerAnglesZyx ℚ)).toStoredImplementation = (-1, -2, -3) ∧
    ((-1, -2, -3) : ℚ × ℚ × ℚ) ≠ (1, 2, 3) := by
  decide

/-- Claim C5: the conversion from a rotation vector divides by the input's
norm with no guard, so at the zero rotation vector the axis normalization
divides by zero and the conversion fails (NaN) instead of returning the
identity angle triple, whatever the extraction function and the usage tag. -/
theorem convertZyxFromRotationVector_zero_divides_by_zero
    (f : ℝ → ℝ × ℝ × ℝ → ℝ × ℝ × ℝ) (u : RotationUsage) :
    convertZyxFromRotationVector f u (0, 0, 0) = none := by
  simp [convertZyxFromRotationVector, normalized, vnorm]

/-- The wrap of a zero angle: mod(0 + pi, 2 pi) - pi = 0. -/
theorem fpm_wrap_zero :
    floatingPointModulo ((0 : ℝ) + Real.pi) (2 * Real.pi) - Real.pi = 0 := by
  have hpi : Real.pi ≠ 0 := Real.pi_ne_zero
  have hq : ((0 : ℝ) + Real.pi) / (2 * Real.pi) = 1 / 2 := by
    rw [zero_add, mul_comm, div_mul_eq_div_div, div_self hpi]
  have hf : ⌊((1 : ℝ) / 2)⌋ = 0 :=
    Int.floor_eq_zero_iff.mpr (Set.mem_Ico.mpr ⟨by norm_num, by norm_num⟩)
  simp only [floatingPointModulo, hq, hf]
  push_cast
  ring

/-- The wrap of a pitch of exactly pi / 2: mod(pi/2 + pi, 2 pi) - pi = pi/2. -/
theorem fpm_wrap_halfpi :
    floatingPointModulo (Real.pi / 2 + Real.pi) (2 * Real.pi) - Real.pi =
      Real.pi / 2 := by
  have hpi : Real.pi ≠ 0 := Real.pi_ne_zero
  have hq : (Real.pi / 2 + Real.pi) / (2 * Real.pi) = 3 / 4 := by
    field_simp
    ring
  have hf : ⌊((3 : ℝ) / 4)⌋ = 0 :=
    Int.floor_eq_zero_iff.mpr (Set.mem_Ico.mpr ⟨by norm_num, by norm_num⟩)
  simp only [floatingPointModulo, hq, hf]
  push_cast
  ring

/-- The wrap of an angle of -pi: mod(-pi + pi, 2 pi) - pi = -pi. -/
theorem fpm_wrap_negpi :
    floatingPointModulo (-Real.pi + Real.pi) (2 * Real.pi) - Real.pi =
      -Real.pi := by
  have hq : (-Real.pi + Real.pi) / (2 * Real.pi) = 0 := by
    rw [neg_add_cancel, zero_div]
  simp only [floatingPointModulo, hq, Int.floor_zero]
  push_cast
  ring

/-- Evaluating getUnique at the Active value built from (0, pi/2, 0): the
wrapped pitch is exactly pi/2, the flipped branch fires, and the result is
the triple (-pi, pi/2, -pi). -/
theorem getUnique_at_halfpi_first :
    EulerAnglesZyx.getUnique Real.pi RotationUsage.ACTIVE
        (EulerAnglesZyx.ofScalars RotationUsage.ACTIVE 0 (Real.pi / 2) 0) =
      ⟨(-Real.pi, Real.pi / 2, -Real.pi)⟩ := by
  simp only [EulerAnglesZyx.getUnique, EulerAnglesZyx.ofScalars, EulerAnglesZyx.yaw,
    EulerAnglesZyx.pitch, EulerAnglesZyx.roll, EulerAnglesZyx.setYaw,
    EulerAnglesZyx.setPitch, EulerAnglesZyx.setRoll]
  rw [fpm_wrap_zero, fpm_wrap_halfpi]
  rw [if_pos (le_refl (Real.pi / 2))]
  norm_num [EulerAnglesZyx.mk.injEq, Prod.mk.injEq]
  ring

/-- Evaluating getUnique at the value it produced in
getUnique_at_halfpi_first: the wrapped triple is again (-pi, pi/2, -pi), the
flipped branch fires again, and the result is back to (0, pi/2, 0). -/
theorem getUnique_at_halfpi_second :
    EulerAnglesZyx.getUnique Real.pi RotationUsage.ACTIVE
        (⟨(-Real.pi, Real.pi / 2, -Real.pi)⟩ : EulerAnglesZyx ℝ) =
      ⟨(0, Real.pi / 2, 0)⟩ := by
  have hneg : ¬ ((0 : ℝ) ≤ -Real.pi) := by
    simp
    exact Real.pi_pos
  simp only [EulerAnglesZyx.getUnique, EulerAnglesZyx.ofScalars, EulerAnglesZyx.yaw,
    EulerAnglesZyx.pitch, EulerAnglesZyx.roll, EulerAnglesZyx.setYaw,
    EulerAnglesZyx.setPitch, EulerAnglesZyx.setRoll]
  rw [fpm_wrap_negpi, fpm_wrap_halfpi]
  rw [if_pos (le_refl (Real.pi / 2))]
  simp only [if_neg hneg]
  norm_num [EulerAnglesZyx.mk.injEq, Prod.mk.injEq]
  ring

/-- Claim C2: the canonicalization range claim fails at the edge case of a
pitch of exactly pi/2: getUnique of the Active value (0, pi/2, 0) has
pitch() equal to pi/2, which is not strictly below pi/2, so the returned
pitch is outside [-pi/2, pi/2). -/
theorem getUnique_pitch_range_violated :
    (EulerAnglesZyx.getUnique Real.pi RotationUsage.ACTIVE
        (EulerAnglesZyx.ofScalars RotationUsage.ACTIVE 0 (Real.pi / 2) 0)).pitch
        RotationUsage.ACTIVE = Real.pi / 2 ∧
    ¬ ((EulerAnglesZyx.getUnique Real.pi RotationUsage.ACTIVE
        (EulerAnglesZyx.ofScalars RotationUsage.ACTIVE 0 (Real.pi / 2) 0)).pitch
        RotationUsage.ACTIVE < Real.pi / 2) := by
  rw [getUnique_at_halfpi_first]
  exact ⟨rfl, lt_irrefl (Real.pi / 2)⟩

/-- Claim C3: getUnique is not idempotent: at the Active value (0, pi/2, 0)
one application yields (-pi, pi/2, -pi) and a second application yields
(0, pi/2, 0) again, so getUnique of getUnique differs from getUnique. -/
theorem getUnique_not_idempotent :
    EulerAnglesZyx.getUnique Real.pi RotationUsage.ACTIVE
        (EulerAnglesZyx.getUnique Real.pi RotationUsage.ACTIVE
          (EulerAnglesZyx.ofScalars RotationUsage.ACTIVE 0 (Real.pi / 2) 0)) ≠
      EulerAnglesZyx.getUnique Real.pi RotationUsage.ACTIVE
        (EulerAnglesZyx.ofScalars RotationUsage.ACTIVE 0 (Real.pi / 2) 0) := by
  rw [getUnique_at_halfpi_first, getUnique_at_halfpi_second]
  intro h
  have h0 : (0 : ℝ) = -Real.pi := congrArg (fun e => e.zyx_.1) h
  have h1 : Real.pi = 0 := by linarith
  exact Real.pi_ne_zero h1
